import Mathlib

/-!
Shallow embedding of the subdomain generation and validation engine
(src/subdomain_generator.py) of the DNS-management repository, together with
theorems settling the specification claims about it.

Randomness: python random.choice is modelled by a deterministic stream of
naturals together with a cursor position; choice on a list of length n reads
one stream value v at the cursor and picks index v % n, advancing the cursor.
All randomized operations thread the cursor explicitly, so consumption of
randomness is observable in the theorems.
-/

namespace DNSGen

/-- The fixed allowlist MAIN_DOMAINS from the source module. -/
def MAIN_DOMAINS : List String :=
  ["accesscam.org", "camdvr.org", "casacam.net", "ddnsfree.com", "ddnsgeek.com",
   "freeddns.org", "giize.com", "gleeze.com", "kozow.com", "loseyourip.com",
   "mywire.org", "ooguy.com", "theworkpc.com", "webredirect.org", "1cooldns.com",
   "bumbleshrimp.com", "dynu.net", "dynuddns.com", "ddnsguru.com", "mysynology.net"]

/-- The shape of SUBDOMAIN_DICTIONARY: three word lists. -/
structure Dictionary where
  prefixes : List String
  words : List String
  suffixes : List String

/-- The fixed word dictionary SUBDOMAIN_DICTIONARY from the source module. -/
def SUBDOMAIN_DICTIONARY : Dictionary where
  prefixes :=
    ["my", "home", "office", "work", "dev", "test", "demo", "app", "web", "api",
     "secure", "private", "public", "main", "primary", "backup", "temp", "local",
     "remote", "cloud", "mobile", "desktop", "server", "client", "admin", "user",
     "guest", "live", "stage", "prod", "beta", "alpha", "v1", "v2", "new", "old"]
  words :=
    ["camera", "monitor", "device", "system", "network", "server", "client", "hub",
     "gateway", "router", "switch", "access", "control", "security", "stream",
     "video", "audio", "data", "file", "backup", "storage", "cloud", "sync",
     "share", "connect", "link", "bridge", "tunnel", "proxy", "cache", "queue",
     "service", "app", "tool", "utility", "helper", "manager", "viewer", "editor",
     "player", "recorder", "scanner", "detector", "sensor", "alarm", "alert",
     "notify", "message", "mail", "chat", "voice", "call", "meeting", "conference"]
  suffixes :=
    ["cam", "dvr", "nvr", "cctv", "ip", "hd", "4k", "pro", "plus", "max", "mini",
     "lite", "basic", "advanced", "premium", "standard", "custom", "special",
     "secure", "safe", "guard", "watch", "view", "see", "look", "eye", "lens",
     "focus", "zoom", "pan", "tilt", "fixed", "mobile", "wireless", "wired",
     "indoor", "outdoor", "night", "day", "auto", "manual", "smart", "ai",
     "cloud", "local", "remote", "direct", "live", "record", "playback", "archive"]

/-- A deterministic model of the process random source. -/
abbrev RandStream := Nat → Nat

/-- Model of random.choice on a list: reads one stream value at the cursor and
picks that index modulo the length, advancing the cursor.  The lists the source
passes are never empty; on the empty list the model returns the default element
where python would raise. -/
def randChoice {α : Type} [Inhabited α] (l : List α) (s : RandStream) (pos : Nat) : α × Nat :=
  (l.getD (s pos % l.length) default, pos + 1)

/-- The first block of SubdomainGenerator.generate_subdomain_name: when the
style flag is on, a coin flip decides whether a random dictionary prefix token
opens the parts list. -/
def prefixPart (usePrefixFlag : Bool) (s : RandStream) (pos : Nat) : List String × Nat :=
  if usePrefixFlag then
    let c := randChoice [true, false] s pos
    if c.1 then
      let p := randChoice SUBDOMAIN_DICTIONARY.prefixes s c.2
      ([p.1], p.2)
    else ([], c.2)
  else ([], pos)

/-- The third block: when the style flag is on, a coin flip decides whether a
random dictionary suffix token is appended to the parts list. -/
def suffixPart (useSuffixFlag : Bool) (parts : List String) (s : RandStream) (pos : Nat) :
    List String × Nat :=
  if useSuffixFlag then
    let c := randChoice [true, false] s pos
    if c.1 then
      let q := randChoice SUBDOMAIN_DICTIONARY.suffixes s c.2
      (parts ++ [q.1], q.2)
    else (parts, c.2)
  else (parts, pos)

/-- The final block: a single-token parts list is extended by a random prefix
token or a random suffix token, depending on one more coin flip. -/
def fixupPart (parts : List String) (s : RandStream) (pos : Nat) : List String × Nat :=
  if parts.length = 1 then
    let c := randChoice [true, false] s pos
    if c.1 then
      let p := randChoice SUBDOMAIN_DICTIONARY.prefixes s c.2
      (p.1 :: parts, p.2)
    else
      let q := randChoice SUBDOMAIN_DICTIONARY.suffixes s c.2
      (parts ++ [q.1], q.2)
  else (parts, pos)

/-- The parts list built by SubdomainGenerator.generate_subdomain_name before
joining: an optional random prefix token, a mandatory random word token, an
optional random suffix token, then the single-token fixup. -/
def generate_parts (usePrefixFlag useSuffixFlag : Bool) (s : RandStream) (pos : Nat) :
    List String × Nat :=
  let st1 := prefixPart usePrefixFlag s pos
  let w := randChoice SUBDOMAIN_DICTIONARY.words s st1.2
  let st2 := (st1.1 ++ [w.1], w.2)
  let st3 := suffixPart useSuffixFlag st2.1 s st2.2
  fixupPart st3.1 s st3.2

/-- Python "-".join on a list of strings. -/
def hyphenJoin : List String → String
  | [] => ""
  | [p] => p
  | p :: q :: r => p ++ "-" ++ hyphenJoin (q :: r)

/-- SubdomainGenerator.generate_subdomain_name. -/
def generate_subdomain_name (usePrefixFlag useSuffixFlag : Bool) (s : RandStream) (pos : Nat) :
    String × Nat :=
  let pr := generate_parts usePrefixFlag useSuffixFlag s pos
  (hyphenJoin pr.1, pr.2)

/-- The validation failures of the generator, as the specification names them.
The source raises ValueError with distinct messages; the specification groups
the two empty-label messages under EmptyLabelError. -/
inductive GenError where
  | InvalidDomainError
  | EmptyLabelError
  | LabelTooLongError
deriving DecidableEq

/-- Model of adding to the python subdomains set: an order-preserving
duplicate-free insert (the claims are order-insensitive, matching the
unspecified iteration order of list applied to a set). -/
def insertUnique (l : List String) (x : String) : List String :=
  if x ∈ l then l else l ++ [x]

/-- The while-loop of SubdomainGenerator.generate_subdomains.  fuel counts the
remaining attempts (initially max_attempts = count * 3, so the loop condition
attempts < max_attempts is the same as fuel > 0); acc is the set built so far;
then the attempts counter and the randomness cursor.  Returns the final set,
attempts counter and cursor. -/
def generateLoop (main_domain : String) (count : Int) (usePrefixFlag useSuffixFlag : Bool)
    (s : RandStream) : Nat → List String → Nat → Nat → List String × Nat × Nat
  | 0, acc, attempts, pos => (acc, attempts, pos)
  | fuel + 1, acc, attempts, pos =>
    if (acc.length : Int) < count then
      let nm := generate_subdomain_name usePrefixFlag useSuffixFlag s pos
      generateLoop main_domain count usePrefixFlag useSuffixFlag s fuel
        (insertUnique acc (nm.1 ++ "." ++ main_domain)) (attempts + 1) nm.2
    else (acc, attempts, pos)

/-- SubdomainGenerator.generate_subdomains.  Returns the result together with
the final randomness cursor (unchanged when validation fails). -/
def generate_subdomains (main_domain : String) (count : Int)
    (usePrefixFlag useSuffixFlag : Bool) (s : RandStream) (pos : Nat) :
    Except GenError (List String) × Nat :=
  if main_domain ∈ MAIN_DOMAINS then
    let r := generateLoop main_domain count usePrefixFlag useSuffixFlag s
      (count * 3).toNat [] 0 pos
    (.ok r.1, r.2.2)
  else (.error .InvalidDomainError, pos)

/-- The characters the normalization keeps: [a-z0-9-]. -/
def validChar (c : Char) : Bool :=
  ('a' ≤ c && c ≤ 'z') || ('0' ≤ c && c ≤ '9') || c = '-'

/-- re.sub with pattern [^a-z0-9-] and replacement "-", per character. -/
def replaceInvalid (l : List Char) : List Char :=
  l.map fun c => if validChar c then c else '-'

/-- re.sub with pattern -+ and replacement "-": collapse runs of hyphens. -/
def collapseHyphens : List Char → List Char
  | [] => []
  | [c] => [c]
  | a :: b :: r =>
    if a = '-' && b = '-' then collapseHyphens (b :: r) else a :: collapseHyphens (b :: r)

/-- str.strip with the argument "-": drop leading and trailing hyphens. -/
def stripHyphens (l : List Char) : List Char :=
  (l.dropWhile fun c => c = '-').rdropWhile fun c => c = '-'

/-- str.strip with no argument: drop surrounding whitespace. -/
def pyStrip (l : List Char) : List Char :=
  (l.dropWhile Char.isWhitespace).rdropWhile Char.isWhitespace

/-- str.lower, per character. -/
def pyLower (l : List Char) : List Char := l.map Char.toLower

/-- SubdomainGenerator.create_custom_subdomain. -/
def create_custom_subdomain (subdomain_name main_domain : String) : Except GenError String :=
  if main_domain ∈ MAIN_DOMAINS then
    if subdomain_name = "" then .error .EmptyLabelError
    else
      let name1 := pyStrip (pyLower subdomain_name.toList)
      let name2 := stripHyphens (collapseHyphens (replaceInvalid name1))
      if name2 = [] then .error .EmptyLabelError
      else if 63 < name2.length then .error .LabelTooLongError
      else .ok (String.mk name2 ++ "." ++ main_domain)
  else .error .InvalidDomainError

/-- The normalization exactly as the specification words it: lower-case,
replace every character outside [a-z0-9-] with a hyphen, collapse runs of
hyphens, strip leading and trailing hyphens.  The source pipeline additionally
trims surrounding whitespace right after lower-casing; the theorems below show
the two pipelines agree on every input. -/
def specNormalize (s : String) : String :=
  String.mk (stripHyphens (collapseHyphens (replaceInvalid (pyLower s.toList))))

/-- The dict emitted for each suggestion by get_random_suggestions. -/
structure Suggestion where
  subdomain : String
  main_domain : String
  full_domain : String
deriving DecidableEq

/-- The for-loop of SubdomainGenerator.get_random_suggestions: each iteration
draws a main domain, then a label with both style flags on. -/
def suggestLoop (s : RandStream) : Nat → Nat → List Suggestion × Nat
  | 0, pos => ([], pos)
  | n + 1, pos =>
    let md := randChoice MAIN_DOMAINS s pos
    let nm := generate_subdomain_name true true s md.2
    let rest := suggestLoop s n nm.2
    (⟨nm.1, md.1, nm.1 ++ "." ++ md.1⟩ :: rest.1, rest.2)

/-- SubdomainGenerator.get_random_suggestions; python range over a nonpositive
count is empty, hence the toNat. -/
def get_random_suggestions (count : Int) (s : RandStream) (pos : Nat) :
    List Suggestion × Nat :=
  suggestLoop s count.toNat pos

/-- SubdomainGenerator.get_main_domains: returns a copy of the allowlist. -/
def get_main_domains (_u : Unit) : List String := MAIN_DOMAINS

/-- Characters permitted inside a dictionary token: [a-z0-9]. -/
def tokenChar (c : Char) : Bool :=
  ('a' ≤ c && c ≤ 'z') || ('0' ≤ c && c ≤ '9')

/-- All tokens of the shipped dictionary. -/
def allTokens : List String :=
  SUBDOMAIN_DICTIONARY.prefixes ++ SUBDOMAIN_DICTIONARY.words ++ SUBDOMAIN_DICTIONARY.suffixes

/-- A clean label uses only [a-z0-9-], with no hyphen at either end and no two
consecutive hyphens. -/
def cleanLabel (l : List Char) : Prop :=
  (∀ c ∈ l, validChar c = true) ∧ l.head? ≠ some '-' ∧ l.getLast? ≠ some '-' ∧
    List.Chain' (fun a b => ¬(a = '-' ∧ b = '-')) l

/-- Python "-".join at the character level, for reasoning about labels. -/
def joinChars : List (List Char) → List Char
  | [] => []
  | [t] => t
  | t :: u :: r => t ++ '-' :: joinChars (u :: r)

/-- Decidable equality on Except, so the embedding can be evaluated at
concrete inputs. -/
instance {ε α : Type} [DecidableEq ε] [DecidableEq α] : DecidableEq (Except ε α) := fun x y =>
  match x, y with
  | .error a, .error b =>
    if h : a = b then .isTrue (by rw [h]) else .isFalse (fun hc => h (Except.error.inj hc))
  | .ok a, .ok b =>
    if h : a = b then .isTrue (by rw [h]) else .isFalse (fun hc => h (Except.ok.inj hc))
  | .error _, .ok _ => .isFalse fun hc => Except.noConfusion hc
  | .ok _, .error _ => .isFalse fun hc => Except.noConfusion hc

/-- Membership of the value random.choice picks, for the nonempty lists the
source passes. -/
theorem randChoice_fst_mem {α : Type} [Inhabited α] {l : List α} (hl : l ≠ [])
    (s : RandStream) (pos : Nat) : (randChoice l s pos).1 ∈ l := by
  have hlen : 0 < l.length := List.length_pos.mpr hl
  have h : s pos % l.length < l.length := Nat.mod_lt _ hlen
  simp only [randChoice]
  rw [List.getD_eq_getElem l default h]
  exact List.getElem_mem h

/-- The optional prefix block yields the empty list or one prefix token. -/
theorem prefixPart_spec (u : Bool) (s : RandStream) (pos : Nat) :
    (prefixPart u s pos).1 = [] ∨
      ∃ p, (prefixPart u s pos).1 = [p] ∧ p ∈ SUBDOMAIN_DICTIONARY.prefixes := by
  cases u with
  | false => exact Or.inl rfl
  | true =>
    by_cases hc : (randChoice [true, false] s pos).1 = true
    · exact Or.inr ⟨(randChoice SUBDOMAIN_DICTIONARY.prefixes s
        (randChoice [true, false] s pos).2).1, by simp [prefixPart, hc],
        randChoice_fst_mem (by decide) s _⟩
    · exact Or.inl (by simp [prefixPart, hc])

/-- The optional suffix block leaves the parts alone or appends one suffix
token. -/
theorem suffixPart_spec (v : Bool) (parts : List String) (s : RandStream) (pos : Nat) :
    (suffixPart v parts s pos).1 = parts ∨
      ∃ q, (suffixPart v parts s pos).1 = parts ++ [q] ∧ q ∈ SUBDOMAIN_DICTIONARY.suffixes := by
  cases v with
  | false => exact Or.inl rfl
  | true =>
    by_cases hc : (randChoice [true, false] s pos).1 = true
    · exact Or.inr ⟨(randChoice SUBDOMAIN_DICTIONARY.suffixes s
        (randChoice [true, false] s pos).2).1, by simp [suffixPart, hc],
        randChoice_fst_mem (by decide) s _⟩
    · exact Or.inl (by simp [suffixPart, hc])

/-- The fixup block leaves a multi-token parts list alone. -/
theorem fixupPart_of_ne_one (parts : List String) (s : RandStream) (pos : Nat)
    (h : parts.length ≠ 1) : fixupPart parts s pos = (parts, pos) := by
  unfold fixupPart
  rw [if_neg h]

/-- The fixup block extends a single-token parts list by a prefix token or a
suffix token. -/
theorem fixupPart_of_one (parts : List String) (s : RandStream) (pos : Nat)
    (h : parts.length = 1) :
    (∃ p, (fixupPart parts s pos).1 = p :: parts ∧ p ∈ SUBDOMAIN_DICTIONARY.prefixes) ∨
      ∃ q, (fixupPart parts s pos).1 = parts ++ [q] ∧ q ∈ SUBDOMAIN_DICTIONARY.suffixes := by
  by_cases hc : (randChoice [true, false] s pos).1 = true
  · exact Or.inl ⟨(randChoice SUBDOMAIN_DICTIONARY.prefixes s
      (randChoice [true, false] s pos).2).1, by simp [fixupPart, h, hc],
      randChoice_fst_mem (by decide) s _⟩
  · exact Or.inr ⟨(randChoice SUBDOMAIN_DICTIONARY.suffixes s
      (randChoice [true, false] s pos).2).1, by simp [fixupPart, h, hc],
      randChoice_fst_mem (by decide) s _⟩

/-- The last two blocks of the generator turn any parts list of the form
pre ++ [w] into a decomposable token list around the word. -/
theorem fixup_suffix_spec (v : Bool) (s : RandStream) (pre : List String) (w : String)
    (posW : Nat) (hw : w ∈ SUBDOMAIN_DICTIONARY.words)
    (hpre : ∀ t ∈ pre, t ∈ SUBDOMAIN_DICTIONARY.prefixes) :
    ∃ pre2 w2 suf2,
      (fixupPart (suffixPart v (pre ++ [w]) s posW).1 s (suffixPart v (pre ++ [w]) s posW).2).1
          = pre2 ++ w2 :: suf2 ∧
        w2 ∈ SUBDOMAIN_DICTIONARY.words ∧
        (∀ t ∈ pre2, t ∈ SUBDOMAIN_DICTIONARY.prefixes) ∧
        (∀ t ∈ suf2, t ∈ SUBDOMAIN_DICTIONARY.suffixes) ∧ (pre2 ≠ [] ∨ suf2 ≠ []) := by
  rcases suffixPart_spec v (pre ++ [w]) s posW with h2 | ⟨q, h2, hqmem⟩ <;> rw [h2]
  · cases pre with
    | nil =>
      rcases fixupPart_of_one ([] ++ [w]) s _ (by simp) with ⟨p, h3, hp⟩ | ⟨q, h3, hq⟩ <;>
        rw [h3]
      · exact ⟨[p], w, [], by simp, hw, by simpa using hp, by simp, Or.inl (by simp)⟩
      · exact ⟨[], w, [q], by simp, hw, by simp, by simpa using hq, Or.inr (by simp)⟩
    | cons a pre1 =>
      rw [fixupPart_of_ne_one _ s _ (by simp)]
      exact ⟨a :: pre1, w, [], by simp, hw, hpre, by simp, Or.inl (by simp)⟩
  · rw [fixupPart_of_ne_one _ s _ (by simp)]
    exact ⟨pre, w, [q], by simp, hw, hpre, by simpa using hqmem, Or.inr (by simp)⟩

/-- Decomposition of the parts list: a word token surrounded by at most one
prefix token and at most one suffix token, never both absent. -/
theorem generate_parts_cases (u v : Bool) (s : RandStream) (pos : Nat) :
    ∃ pre w suf, (generate_parts u v s pos).1 = pre ++ w :: suf ∧
      w ∈ SUBDOMAIN_DICTIONARY.words ∧
      (∀ t ∈ pre, t ∈ SUBDOMAIN_DICTIONARY.prefixes) ∧
      (∀ t ∈ suf, t ∈ SUBDOMAIN_DICTIONARY.suffixes) ∧ (pre ≠ [] ∨ suf ≠ []) := by
  have hpre : ∀ t ∈ (prefixPart u s pos).1, t ∈ SUBDOMAIN_DICTIONARY.prefixes := by
    rcases prefixPart_spec u s pos with h | ⟨p, h, hp⟩ <;> rw [h]
    · intro t ht; cases ht
    · intro t ht; rw [List.mem_singleton] at ht; rw [ht]; exact hp
  have hw : (randChoice SUBDOMAIN_DICTIONARY.words s (prefixPart u s pos).2).1
      ∈ SUBDOMAIN_DICTIONARY.words := randChoice_fst_mem (by decide) s _
  exact fixup_suffix_spec v s (prefixPart u s pos).1
    ((randChoice SUBDOMAIN_DICTIONARY.words s (prefixPart u s pos).2).1)
    ((randChoice SUBDOMAIN_DICTIONARY.words s (prefixPart u s pos).2).2) hw hpre

/-- Inserting into the modelled set preserves freedom from duplicates. -/
theorem insertUnique_nodup {l : List String} {x : String} (h : l.Nodup) :
    (insertUnique l x).Nodup := by
  unfold insertUnique
  split
  · exact h
  · next hx =>
    rw [List.nodup_append]
    refine ⟨h, List.nodup_singleton x, ?_⟩
    intro a ha hax
    rw [List.mem_singleton] at hax
    exact hx (hax ▸ ha)

/-- Elements after an insert come from the old set or are the new element. -/
theorem insertUnique_sub {l : List String} {x : String} :
    ∀ y ∈ insertUnique l x, y ∈ l ∨ y = x := by
  unfold insertUnique
  split
  · exact fun y hy => Or.inl hy
  · intro y hy
    rcases List.mem_append.mp hy with h | h
    · exact Or.inl h
    · exact Or.inr (List.mem_singleton.mp h)

/-- An insert grows the modelled set by at most one element. -/
theorem insertUnique_length_le (l : List String) (x : String) :
    (insertUnique l x).length ≤ l.length + 1 := by
  unfold insertUnique
  split
  · omega
  · simp

/-- Invariant of the generation loop: the accumulated set stays duplicate-free,
all its elements satisfy any property enjoyed by every freshly generated full
domain, its size never exceeds the larger of the requested count and its start
size, the attempts counter is bounded by the fuel, and on exit either the size
has reached the requested count or the fuel is exhausted. -/
theorem generateLoop_master (md : String) (count : Int) (u v : Bool) (s : RandStream)
    (P : String → Prop)
    (hP : ∀ q, P ((generate_subdomain_name u v s q).1 ++ "." ++ md)) :
    ∀ fuel acc attempts pos, acc.Nodup → (∀ x ∈ acc, P x) →
      (generateLoop md count u v s fuel acc attempts pos).1.Nodup ∧
      (∀ x ∈ (generateLoop md count u v s fuel acc attempts pos).1, P x) ∧
      (generateLoop md count u v s fuel acc attempts pos).1.length ≤
        max count.toNat acc.length ∧
      (generateLoop md count u v s fuel acc attempts pos).2.1 ≤ attempts + fuel ∧
      (¬ (((generateLoop md count u v s fuel acc attempts pos).1.length : Int) < count) ∨
        (generateLoop md count u v s fuel acc attempts pos).2.1 = attempts + fuel) := by
  intro fuel
  induction fuel with
  | zero =>
    intro acc attempts pos hnd hPacc
    simp only [generateLoop]
    exact ⟨hnd, hPacc, le_max_right _ _, Nat.le_refl _, Or.inr rfl⟩
  | succ n ih =>
    intro acc attempts pos hnd hPacc
    simp only [generateLoop]
    split
    · next hlt =>
      have hPacc2 : ∀ y ∈ insertUnique acc
          ((generate_subdomain_name u v s pos).1 ++ "." ++ md), P y := by
        intro y hy
        rcases insertUnique_sub y hy with h | h
        · exact hPacc y h
        · exact h ▸ hP pos
      obtain ⟨ihnd, ihP, ihlen, ihatt, ihstop⟩ :=
        ih (insertUnique acc ((generate_subdomain_name u v s pos).1 ++ "." ++ md))
          (attempts + 1) (generate_subdomain_name u v s pos).2
          (insertUnique_nodup hnd) hPacc2
      refine ⟨ihnd, ihP, ?_, by omega, ?_⟩
      · have h1 : (insertUnique acc
            ((generate_subdomain_name u v s pos).1 ++ "." ++ md)).length ≤ count.toNat := by
          have h2 := insertUnique_length_le acc
            ((generate_subdomain_name u v s pos).1 ++ "." ++ md)
          omega
        calc (generateLoop md count u v s n _ (attempts + 1) _).1.length
            ≤ max count.toNat (insertUnique acc
                ((generate_subdomain_name u v s pos).1 ++ "." ++ md)).length := ihlen
          _ = count.toNat := Nat.max_eq_left h1
          _ ≤ max count.toNat acc.length := le_max_left _ _
      · rcases ihstop with h | h
        · exact Or.inl h
        · exact Or.inr (by omega)
    · next hge =>
      exact ⟨hnd, hPacc, le_max_right _ _, Nat.le_add_right attempts (n + 1), Or.inl hge⟩

/-- Dropping a leading hyphen commutes with the final strip. -/
theorem stripHyphens_cons_hyphen (l : List Char) : stripHyphens ('-' :: l) = stripHyphens l := by
  simp [stripHyphens, List.dropWhile_cons]

/-- Collapsing then stripping ignores a leading hyphen. -/
theorem strip_collapse_cons (zs : List Char) :
    stripHyphens (collapseHyphens ('-' :: zs)) = stripHyphens (collapseHyphens zs) := by
  cases zs with
  | nil => rfl
  | cons b r =>
    by_cases hb : b = '-'
    · subst hb
      simp [collapseHyphens]
    · have h : collapseHyphens ('-' :: b :: r) = '-' :: collapseHyphens (b :: r) := by
        simp [collapseHyphens, hb]
      rw [h, stripHyphens_cons_hyphen]

/-- Appending a hyphen to the input of the collapse either appends a hyphen to
its output or is absorbed because the output already ends in a hyphen. -/
theorem collapse_concat : ∀ zs : List Char,
    collapseHyphens (zs ++ ['-']) = collapseHyphens zs ++ ['-'] ∨
      (collapseHyphens (zs ++ ['-']) = collapseHyphens zs ∧
        (collapseHyphens zs).getLast? = some '-')
  | [] => Or.inl rfl
  | [c] => by
    by_cases hc : c = '-'
    · subst hc
      exact Or.inr ⟨by simp [collapseHyphens], rfl⟩
    · exact Or.inl (by simp [collapseHyphens, hc])
  | a :: b :: t => by
    have ih := collapse_concat (b :: t)
    by_cases hab : a = '-' ∧ b = '-'
    · obtain ⟨ha, hb⟩ := hab
      subst ha; subst hb
      have e1 : collapseHyphens (('-' :: '-' :: t) ++ ['-'])
          = collapseHyphens (('-' :: t) ++ ['-']) := by simp [collapseHyphens]
      have e2 : collapseHyphens ('-' :: '-' :: t) = collapseHyphens ('-' :: t) := by
        simp [collapseHyphens]
      rw [e1, e2]
      exact ih
    · have e1 : collapseHyphens ((a :: b :: t) ++ ['-'])
          = a :: collapseHyphens ((b :: t) ++ ['-']) := by
        rcases not_and_or.mp hab with h | h <;> simp [collapseHyphens, h]
      have e2 : collapseHyphens (a :: b :: t) = a :: collapseHyphens (b :: t) := by
        rcases not_and_or.mp hab with h | h <;> simp [collapseHyphens, h]
      rw [e1, e2]
      rcases ih with h | ⟨h, hl⟩
      · exact Or.inl (by rw [h]; simp)
      · refine Or.inr ⟨by rw [h], ?_⟩
        cases hcl : collapseHyphens (b :: t) with
        | nil => rw [hcl] at hl; cases hl
        | cons c m =>
          rw [hcl] at hl
          rw [List.getLast?_cons_cons]
          exact hl

/-- Stripping absorbs a trailing hyphen. -/
theorem strip_concat_hyphen (m : List Char) : stripHyphens (m ++ ['-']) = stripHyphens m := by
  unfold stripHyphens
  rw [List.dropWhile_append]
  split
  · next he =>
    rw [List.isEmpty_iff] at he
    rw [he]
    rfl
  · exact List.rdropWhile_concat_pos _ _ '-' (by decide)

/-- Collapsing then stripping ignores a trailing hyphen. -/
theorem strip_collapse_concat (zs : List Char) :
    stripHyphens (collapseHyphens (zs ++ ['-'])) = stripHyphens (collapseHyphens zs) := by
  rcases collapse_concat zs with h | ⟨h, _⟩
  · rw [h, strip_concat_hyphen]
  · rw [h]

/-- Collapsing then stripping ignores any trailing run of hyphens. -/
theorem strip_collapse_append_right : ∀ (post zs : List Char), (∀ c ∈ post, c = '-') →
    stripHyphens (collapseHyphens (zs ++ post)) = stripHyphens (collapseHyphens zs)
  | [], zs, _ => by rw [List.append_nil]
  | c :: ps, zs, h => by
    have hc : c = '-' := h c (List.mem_cons_self c ps)
    have ih := strip_collapse_append_right ps (zs ++ [c])
      (fun d hd => h d (List.mem_cons_of_mem c hd))
    rw [show zs ++ c :: ps = (zs ++ [c]) ++ ps by simp, ih]
    subst hc
    exact strip_collapse_concat zs

/-- Collapsing then stripping ignores any leading run of hyphens. -/
theorem strip_collapse_append_left : ∀ (pre zs : List Char), (∀ c ∈ pre, c = '-') →
    stripHyphens (collapseHyphens (pre ++ zs)) = stripHyphens (collapseHyphens zs)
  | [], _, _ => rfl
  | c :: ps, zs, h => by
    have hc : c = '-' := h c (List.mem_cons_self c ps)
    have ih := strip_collapse_append_left ps zs (fun d hd => h d (List.mem_cons_of_mem c hd))
    subst hc
    rw [List.cons_append, strip_collapse_cons, ih]

/-- Whitespace never survives the character filter. -/
theorem ws_invalid {c : Char} (h : c.isWhitespace = true) : validChar c = false := by
  simp only [Char.isWhitespace, Bool.or_eq_true, decide_eq_true_eq] at h
  rcases h with ((h | h) | h) | h <;> subst h <;> decide

/-- The character replacement distributes over append. -/
theorem replaceInvalid_append (l₁ l₂ : List Char) :
    replaceInvalid (l₁ ++ l₂) = replaceInvalid l₁ ++ replaceInvalid l₂ :=
  List.map_append _ l₁ l₂

/-- The replacement maps every whitespace character to a hyphen, so leading
whitespace dropped by strip would have been stripped as hyphens anyway. -/
theorem strip_collapse_replace_dropWhile (ys : List Char) :
    stripHyphens (collapseHyphens (replaceInvalid (ys.dropWhile Char.isWhitespace))) =
      stripHyphens (collapseHyphens (replaceInvalid ys)) := by
  conv_rhs => rw [← List.takeWhile_append_dropWhile Char.isWhitespace ys]
  rw [replaceInvalid_append]
  rw [strip_collapse_append_left]
  intro c hc
  rcases List.mem_map.mp hc with ⟨d, hd, hdc⟩
  have hws := List.mem_takeWhile_imp hd
  rw [← hdc]
  simp [ws_invalid hws]

/-- Splitting a list at its trailing whitespace run. -/
theorem rdropWhile_append_rtakeWhile {α : Type} (p : α → Bool) (l : List α) :
    l.rdropWhile p ++ l.rtakeWhile p = l := by
  rw [List.rdropWhile, List.rtakeWhile, ← List.reverse_append,
    List.takeWhile_append_dropWhile, List.reverse_reverse]

/-- The replacement maps every whitespace character to a hyphen, so trailing
whitespace dropped by strip would have been stripped as hyphens anyway. -/
theorem strip_collapse_replace_rdropWhile (ys : List Char) :
    stripHyphens (collapseHyphens (replaceInvalid (ys.rdropWhile Char.isWhitespace))) =
      stripHyphens (collapseHyphens (replaceInvalid ys)) := by
  conv_rhs => rw [← rdropWhile_append_rtakeWhile Char.isWhitespace ys]
  rw [replaceInvalid_append]
  rw [strip_collapse_append_right]
  intro c hc
  rcases List.mem_map.mp hc with ⟨d, hd, hdc⟩
  have hws := List.mem_rtakeWhile_imp hd
  rw [← hdc]
  simp [ws_invalid hws]

/-- The whitespace trim performed by the source before the character filter
does not change the normalized result. -/
theorem strip_collapse_replace_pyStrip (xs : List Char) :
    stripHyphens (collapseHyphens (replaceInvalid (pyStrip xs))) =
      stripHyphens (collapseHyphens (replaceInvalid xs)) := by
  unfold pyStrip
  rw [strip_collapse_replace_rdropWhile, strip_collapse_replace_dropWhile]

/-- Unfolded form of create_custom_subdomain with the local bindings inlined. -/
theorem create_custom_eq (label md : String) :
    create_custom_subdomain label md =
      if md ∈ MAIN_DOMAINS then
        if label = "" then .error .EmptyLabelError
        else
          if stripHyphens (collapseHyphens (replaceInvalid (pyStrip
              (pyLower label.toList)))) = [] then .error .EmptyLabelError
          else if 63 < (stripHyphens (collapseHyphens (replaceInvalid (pyStrip
              (pyLower label.toList))))).length then .error .LabelTooLongError
          else .ok (String.mk (stripHyphens (collapseHyphens (replaceInvalid (pyStrip
              (pyLower label.toList))))) ++ "." ++ md)
      else .error .InvalidDomainError := rfl

/-- A string is empty exactly when its character list is. -/
theorem string_eq_empty_iff (s : String) : s = "" ↔ s.data = [] := by
  rw [String.ext_iff]

/-- create_custom_subdomain phrased through the normalization the
specification describes (no whitespace pre-trim). -/
theorem create_custom_norm_eq (label md : String) :
    create_custom_subdomain label md =
      if md ∈ MAIN_DOMAINS then
        if label = "" then .error .EmptyLabelError
        else
          if (specNormalize label).data = [] then .error .EmptyLabelError
          else if 63 < (specNormalize label).data.length then .error .LabelTooLongError
          else .ok (specNormalize label ++ "." ++ md)
      else .error .InvalidDomainError := by
  rw [create_custom_eq]
  simp only [strip_collapse_replace_pyStrip, specNormalize, pyLower]

/-- Joining strings and joining their character lists agree. -/
theorem hyphenJoin_data : ∀ parts : List String,
    (hyphenJoin parts).data = joinChars (parts.map String.data)
  | [] => rfl
  | [p] => rfl
  | p :: q :: r => by
    have ih := hyphenJoin_data (q :: r)
    show (p ++ "-" ++ hyphenJoin (q :: r)).data
      = p.data ++ '-' :: joinChars ((q :: r).map String.data)
    rw [String.data_append, String.data_append, ih]
    simp

set_option maxRecDepth 8192 in
/-- Every shipped dictionary token is nonempty and uses only [a-z0-9]. -/
theorem allTokens_good : ∀ t ∈ allTokens, t.data ≠ [] ∧ ∀ c ∈ t.data, tokenChar c = true := by
  decide

/-- Token characters are valid label characters. -/
theorem tokenChar_valid {c : Char} (h : tokenChar c = true) : validChar c = true := by
  simp only [tokenChar, Bool.or_eq_true] at h
  simp only [validChar, Bool.or_eq_true]
  tauto

/-- Token characters are never hyphens. -/
theorem tokenChar_ne_hyphen {c : Char} (h : tokenChar c = true) : c ≠ '-' := by
  intro he
  subst he
  exact absurd h (by decide)

/-- A hyphen-free list trivially has no doubled hyphen. -/
theorem chain_of_no_hyphen {l : List Char} (h : ∀ a ∈ l, a ≠ '-') :
    List.Chain' (fun a b => ¬(a = '-' ∧ b = '-')) l := by
  induction l with
  | nil => exact List.chain'_nil
  | cons a t ih =>
    rw [List.chain'_cons']
    refine ⟨?_, ih fun x hx => h x (List.mem_cons_of_mem a hx)⟩
    intro y _
    rintro ⟨ha, _⟩
    exact h a (List.mem_cons_self a t) ha

/-- The join of a list opening with a nonempty token is nonempty. -/
theorem joinChars_cons_ne_nil (t : List Char) (ts : List (List Char)) (h : t ≠ []) :
    joinChars (t :: ts) ≠ [] := by
  cases ts with
  | nil => exact h
  | cons u r =>
    show t ++ '-' :: joinChars (u :: r) ≠ []
    simp

/-- The hyphen-join of nonempty hyphen-free tokens is a clean label. -/
theorem joinChars_clean : ∀ ts : List (List Char),
    (∀ t ∈ ts, t ≠ [] ∧ ∀ c ∈ t, tokenChar c = true) → ts ≠ [] → cleanLabel (joinChars ts)
  | [], _, hne => absurd rfl hne
  | [t], h, _ => by
    obtain ⟨hne, hch⟩ := h t (List.mem_cons_self t [])
    refine ⟨fun c hc => tokenChar_valid (hch c hc), ?_, ?_, ?_⟩
    · cases t with
      | nil => exact absurd rfl hne
      | cons a m =>
        show (a :: m).head? ≠ some '-'
        rw [List.head?_cons]
        intro hcontra
        exact tokenChar_ne_hyphen (hch a (List.mem_cons_self a m)) (Option.some.inj hcontra)
    · intro hcontra
      exact tokenChar_ne_hyphen (hch '-' (List.mem_of_mem_getLast? hcontra)) rfl
    · exact chain_of_no_hyphen fun a ha => tokenChar_ne_hyphen (hch a ha)
  | t :: u :: r, h, _ => by
    obtain ⟨hne, hch⟩ := h t (List.mem_cons_self t (u :: r))
    have hrest : ∀ x ∈ u :: r, x ≠ [] ∧ ∀ c ∈ x, tokenChar c = true :=
      fun x hx => h x (List.mem_cons_of_mem t hx)
    obtain ⟨ihv, ihh, ihl, ihc⟩ := joinChars_clean (u :: r) hrest (by simp)
    have hJne : joinChars (u :: r) ≠ [] := joinChars_cons_ne_nil u r (hrest u (by simp)).1
    show cleanLabel (t ++ '-' :: joinChars (u :: r))
    refine ⟨?_, ?_, ?_, ?_⟩
    · intro c hc
      rcases List.mem_append.mp hc with hc | hc
      · exact tokenChar_valid (hch c hc)
      · rcases List.mem_cons.mp hc with hc | hc
        · subst hc; decide
        · exact ihv c hc
    · rw [List.head?_append_of_ne_nil t hne]
      cases t with
      | nil => exact absurd rfl hne
      | cons a m =>
        rw [List.head?_cons]
        intro hcontra
        exact tokenChar_ne_hyphen (hch a (List.mem_cons_self a m)) (Option.some.inj hcontra)
    · rw [List.getLast?_append_of_ne_nil t (by simp)]
      cases hJ : joinChars (u :: r) with
      | nil => exact absurd hJ hJne
      | cons c m =>
        rw [List.getLast?_cons_cons]
        rw [hJ] at ihl
        exact ihl
    · rw [List.chain'_append]
      refine ⟨chain_of_no_hyphen fun a ha => tokenChar_ne_hyphen (hch a ha), ?_, ?_⟩
      · rw [List.chain'_cons']
        refine ⟨?_, ihc⟩
        intro y hy
        rintro ⟨_, rfl⟩
        exact ihh (Option.mem_def.mp hy)
      · intro x hx y hy
        rintro ⟨rfl, _⟩
        exact tokenChar_ne_hyphen
          (hch '-' (List.mem_of_mem_getLast? (Option.mem_def.mp hx))) rfl

/-- Every generated label is clean: only [a-z0-9-], no hyphen at either end,
no doubled hyphen. -/
theorem generate_label_clean (u v : Bool) (s : RandStream) (pos : Nat) :
    cleanLabel (generate_subdomain_name u v s pos).1.data := by
  obtain ⟨pre, w, suf, heq, hw, hpre, hsuf, _⟩ := generate_parts_cases u v s pos
  show cleanLabel (hyphenJoin (generate_parts u v s pos).1).data
  rw [hyphenJoin_data, heq]
  apply joinChars_clean
  · intro t ht
    rcases List.mem_map.mp ht with ⟨t0, ht0, rfl⟩
    have hall : t0 ∈ allTokens := by
      rcases List.mem_append.mp ht0 with h | h
      · exact List.mem_append.mpr (Or.inl (List.mem_append.mpr (Or.inl (hpre t0 h))))
      · rcases List.mem_cons.mp h with h | h
        · exact List.mem_append.mpr (Or.inl (List.mem_append.mpr (Or.inr
            (by rw [h]; exact hw))))
        · exact List.mem_append.mpr (Or.inr (hsuf t0 h))
    exact allTokens_good t0 hall
  · simp

/-- Per-iteration properties of the suggestion loop. -/
theorem suggestLoop_spec (s : RandStream) : ∀ (n pos : Nat),
    (suggestLoop s n pos).1.length = n ∧
      ∀ x ∈ (suggestLoop s n pos).1, x.main_domain ∈ MAIN_DOMAINS ∧
        x.full_domain = x.subdomain ++ "." ++ x.main_domain ∧
        ∃ q, x.subdomain = (generate_subdomain_name true true s q).1
  | 0, pos => ⟨rfl, fun x hx => absurd hx (List.not_mem_nil x)⟩
  | n + 1, pos => by
    have ih := suggestLoop_spec s n
      (generate_subdomain_name true true s (randChoice MAIN_DOMAINS s pos).2).2
    simp only [suggestLoop]
    constructor
    · simp [ih.1]
    · intro x hx
      rcases List.mem_cons.mp hx with hx | hx
      · subst hx
        exact ⟨randChoice_fst_mem (by decide) s pos, rfl,
          (randChoice MAIN_DOMAINS s pos).2, rfl⟩
      · exact ih.2 x hx

/-- Every token of the parts list comes from the shipped dictionary. -/
theorem generate_parts_tokens (u v : Bool) (s : RandStream) (pos : Nat) :
    ∀ t ∈ (generate_parts u v s pos).1, t ∈ allTokens := by
  obtain ⟨pre, w, suf, heq, hw, hpre, hsuf, -⟩ := generate_parts_cases u v s pos
  intro t ht
  rw [heq] at ht
  rcases List.mem_append.mp ht with h | h
  · exact List.mem_append.mpr (Or.inl (List.mem_append.mpr (Or.inl (hpre t h))))
  · rcases List.mem_cons.mp h with h | h
    · exact List.mem_append.mpr (Or.inl (List.mem_append.mpr (Or.inr (by rw [h]; exact hw))))
    · exact List.mem_append.mpr (Or.inr (hsuf t h))

/-- Claim C1, as stated, fails on the code: with main domain accesscam.org,
count 2 (within the achievable label space, two distinct labels being
exhibited below), and the constant-zero random stream, generate_subdomains
returns a single full domain, not exactly two.  The bounded retry budget of
3 * count attempts is exhausted by duplicate draws. -/
theorem C1_counterexample :
    "accesscam.org" ∈ MAIN_DOMAINS ∧
      (generate_subdomain_name false false (fun _ => 0) 0).1
        ≠ (generate_subdomain_name false false (fun _ => 1) 0).1 ∧
      (generate_subdomains "accesscam.org" 2 false false (fun _ => 0) 0).1
        = .ok ["my-camera.accesscam.org"] ∧
      (["my-camera.accesscam.org"] : List String).length ≠ 2 := by
  decide

/-- Claim C1 (amended): for every allowlisted main domain and every count,
generate_subdomains succeeds with a duplicate-free list of at most count full
domains, each of the form label.mainDomain; exactly count cannot be guaranteed
for every random stream. -/
theorem C1_amended_generate_subdomains (md : String) (count : Int) (u v : Bool)
    (s : RandStream) (pos : Nat) (h : md ∈ MAIN_DOMAINS) :
    ∃ l, (generate_subdomains md count u v s pos).1 = .ok l ∧ l.Nodup ∧
      l.length ≤ count.toNat ∧ ∀ x ∈ l, ∃ lab, x = lab ++ "." ++ md := by
  obtain ⟨hnd, hP, hlen, -, -⟩ := generateLoop_master md count u v s
    (fun x => ∃ lab, x = lab ++ "." ++ md)
    (fun q => ⟨(generate_subdomain_name u v s q).1, rfl⟩)
    (count * 3).toNat [] 0 pos List.nodup_nil (fun x hx => absurd hx (List.not_mem_nil x))
  refine ⟨(generateLoop md count u v s (count * 3).toNat [] 0 pos).1, ?_, hnd, ?_, hP⟩
  · unfold generate_subdomains
    rw [if_pos h]
  · simpa using hlen

/-- Witness for the amended claim C1 at a concrete input. -/
theorem C1_witness :
    "dynu.net" ∈ MAIN_DOMAINS ∧
      ∃ l, (generate_subdomains "dynu.net" 3 true true (fun _ => 0) 0).1 = .ok l ∧ l.Nodup ∧
        l.length ≤ (3 : Int).toNat ∧ ∀ x ∈ l, ∃ lab, x = lab ++ "." ++ "dynu.net" :=
  ⟨by decide, C1_amended_generate_subdomains "dynu.net" 3 true true (fun _ => 0) 0 (by decide)⟩

/-- Claim C2: a main domain outside the allowlist makes generate_subdomains
and create_custom_subdomain fail with InvalidDomainError, with the randomness
cursor untouched and uniformly in the label argument. -/
theorem C2_invalid_domain_rejected (md : String) (h : md ∉ MAIN_DOMAINS) :
    (∀ (count : Int) (u v : Bool) (s : RandStream) (pos : Nat),
        generate_subdomains md count u v s pos = (.error .InvalidDomainError, pos)) ∧
      ∀ label, create_custom_subdomain label md = .error .InvalidDomainError := by
  constructor
  · intro count u v s pos
    unfold generate_subdomains
    rw [if_neg h]
  · intro label
    unfold create_custom_subdomain
    rw [if_neg h]

/-- Witness for claim C2 at a concrete input. -/
theorem C2_witness :
    "example.com" ∉ MAIN_DOMAINS ∧
      generate_subdomains "example.com" 10 true true (fun _ => 0) 0
        = (.error .InvalidDomainError, 0) ∧
      create_custom_subdomain "My Cool Router!" "example.com"
        = .error .InvalidDomainError :=
  ⟨by decide,
    (C2_invalid_domain_rejected "example.com" (by decide)).1 10 true true (fun _ => 0) 0,
    (C2_invalid_domain_rejected "example.com" (by decide)).2 "My Cool Router!"⟩

/-- Claim C3: the generation loop performs at most 3 * count label
generations (the attempts counter), stops early once count distinct full
domains are collected (on exit the size has reached count or the budget is
spent), terminates by construction, and returns a deduplicated list of size
at most count with no error. -/
theorem C3_bounded_retry (md : String) (count : Int) (u v : Bool) (s : RandStream)
    (pos : Nat) (h : md ∈ MAIN_DOMAINS) :
    (generate_subdomains md count u v s pos).1 =
        .ok (generateLoop md count u v s (count * 3).toNat [] 0 pos).1 ∧
      (generateLoop md count u v s (count * 3).toNat [] 0 pos).2.1 ≤ (count * 3).toNat ∧
      (¬ (((generateLoop md count u v s (count * 3).toNat [] 0 pos).1.length : Int) < count) ∨
        (generateLoop md count u v s (count * 3).toNat [] 0 pos).2.1 = (count * 3).toNat) ∧
      (generateLoop md count u v s (count * 3).toNat [] 0 pos).1.Nodup ∧
      (generateLoop md count u v s (count * 3).toNat [] 0 pos).1.length ≤ count.toNat := by
  obtain ⟨hnd, -, hlen, hatt, hstop⟩ := generateLoop_master md count u v s (fun _ => True)
    (fun _ => trivial) (count * 3).toNat [] 0 pos List.nodup_nil
    (fun x hx => absurd hx (List.not_mem_nil x))
  refine ⟨?_, by simpa using hatt, ?_, hnd, by simpa using hlen⟩
  · unfold generate_subdomains
    rw [if_pos h]
  · rcases hstop with h1 | h1
    · exact Or.inl h1
    · exact Or.inr (by simpa using h1)

/-- Witness for claim C3 at a concrete input. -/
theorem C3_witness :
    "dynu.net" ∈ MAIN_DOMAINS ∧
      ((generate_subdomains "dynu.net" 2 false false (fun _ => 0) 0).1 =
          .ok (generateLoop "dynu.net" 2 false false (fun _ => 0) ((2 : Int) * 3).toNat
            [] 0 0).1 ∧
        (generateLoop "dynu.net" 2 false false (fun _ => 0) ((2 : Int) * 3).toNat
            [] 0 0).2.1 ≤ ((2 : Int) * 3).toNat ∧
        (¬ (((generateLoop "dynu.net" 2 false false (fun _ => 0) ((2 : Int) * 3).toNat
              [] 0 0).1.length : Int) < 2) ∨
          (generateLoop "dynu.net" 2 false false (fun _ => 0) ((2 : Int) * 3).toNat
              [] 0 0).2.1 = ((2 : Int) * 3).toNat) ∧
        (generateLoop "dynu.net" 2 false false (fun _ => 0) ((2 : Int) * 3).toNat
            [] 0 0).1.Nodup ∧
        (generateLoop "dynu.net" 2 false false (fun _ => 0) ((2 : Int) * 3).toNat
            [] 0 0).1.length ≤ (2 : Int).toNat) :=
  ⟨by decide, C3_bounded_retry "dynu.net" 2 false false (fun _ => 0) 0 (by decide)⟩

/-- Claim C4: whenever create_custom_subdomain succeeds its result is the
spec-described normalization of the label joined to the main domain, and the
documented example holds. -/
theorem C4_custom_normalization (label md r : String) (h : md ∈ MAIN_DOMAINS) :
    (create_custom_subdomain label md = .ok r → r = specNormalize label ++ "." ++ md) ∧
      create_custom_subdomain "My Cool Router!" "dynu.net"
        = .ok "my-cool-router.dynu.net" := by
  constructor
  · intro hok
    rw [create_custom_norm_eq, if_pos h] at hok
    by_cases he : label = ""
    · rw [if_pos he] at hok; cases hok
    · rw [if_neg he] at hok
      by_cases h2 : (specNormalize label).data = []
      · rw [if_pos h2] at hok; cases hok
      · rw [if_neg h2] at hok
        by_cases h3 : 63 < (specNormalize label).data.length
        · rw [if_pos h3] at hok; cases hok
        · rw [if_neg h3] at hok
          exact (Except.ok.inj hok).symm
  · decide

/-- Witness for claim C4 at the documented example. -/
theorem C4_witness :
    "dynu.net" ∈ MAIN_DOMAINS ∧
      create_custom_subdomain "My Cool Router!" "dynu.net"
        = .ok "my-cool-router.dynu.net" ∧
      "my-cool-router.dynu.net" = specNormalize "My Cool Router!" ++ "." ++ "dynu.net" :=
  ⟨by decide, by decide,
    (C4_custom_normalization "My Cool Router!" "dynu.net" "my-cool-router.dynu.net"
      (by decide)).1 (by decide)⟩

/-- Claim C5: create_custom_subdomain fails with EmptyLabelError when the
trimmed lower-cased label is empty or when normalization empties it, fails
with LabelTooLongError when the normalized label exceeds 63 characters, and
succeeds otherwise; the documented examples hold. -/
theorem C5_custom_label_errors (label md : String) (h : md ∈ MAIN_DOMAINS) :
    (pyStrip (pyLower label.toList) = [] →
        create_custom_subdomain label md = .error .EmptyLabelError) ∧
      (specNormalize label = "" →
        create_custom_subdomain label md = .error .EmptyLabelError) ∧
      (63 < (specNormalize label).length →
        create_custom_subdomain label md = .error .LabelTooLongError) ∧
      (specNormalize label ≠ "" → (specNormalize label).length ≤ 63 →
        ∃ r, create_custom_subdomain label md = .ok r) ∧
      create_custom_subdomain "---" "dynu.net" = .error .EmptyLabelError ∧
      create_custom_subdomain (String.mk (List.replicate 64 'a')) "dynu.net"
        = .error .LabelTooLongError := by
  refine ⟨?_, ?_, ?_, ?_, by decide, by decide⟩
  · intro hstrip
    have hnorm : (specNormalize label).data = [] := by
      show stripHyphens (collapseHyphens (replaceInvalid (pyLower label.toList))) = []
      rw [← strip_collapse_replace_pyStrip, hstrip]
      rfl
    rw [create_custom_norm_eq, if_pos h]
    by_cases he : label = ""
    · rw [if_pos he]
    · rw [if_neg he, if_pos hnorm]
  · intro hempty
    have hnorm : (specNormalize label).data = [] := (string_eq_empty_iff _).mp hempty
    rw [create_custom_norm_eq, if_pos h]
    by_cases he : label = ""
    · rw [if_pos he]
    · rw [if_neg he, if_pos hnorm]
  · intro hlong
    have hlen : 63 < (specNormalize label).data.length := hlong
    have hne : label ≠ "" := by
      intro he
      subst he
      exact absurd hlen (by decide)
    have hdata : ¬ ((specNormalize label).data = []) := by
      intro h0
      rw [h0] at hlen
      exact absurd hlen (by decide)
    rw [create_custom_norm_eq, if_pos h, if_neg hne, if_neg hdata, if_pos hlen]
  · intro hne hlen
    have hdata : ¬ ((specNormalize label).data = []) :=
      fun h0 => hne ((string_eq_empty_iff _).mpr h0)
    have hlabel : label ≠ "" := by
      intro he
      subst he
      exact hne rfl
    have hlen2 : (specNormalize label).data.length ≤ 63 := hlen
    have hnot : ¬ (63 < (specNormalize label).data.length) := by omega
    rw [create_custom_norm_eq, if_pos h, if_neg hlabel, if_neg hdata, if_neg hnot]
    exact ⟨_, rfl⟩

/-- Witness for claim C5 at concrete inputs. -/
theorem C5_witness :
    "dynu.net" ∈ MAIN_DOMAINS ∧
      specNormalize "---" = "" ∧
      create_custom_subdomain "---" "dynu.net" = .error .EmptyLabelError ∧
      63 < (specNormalize (String.mk (List.replicate 64 'a'))).length ∧
      create_custom_subdomain (String.mk (List.replicate 64 'a')) "dynu.net"
        = .error .LabelTooLongError :=
  ⟨by decide, by decide,
    (C5_custom_label_errors "---" "dynu.net" (by decide)).2.1 (by decide),
    by decide,
    (C5_custom_label_errors (String.mk (List.replicate 64 'a')) "dynu.net"
      (by decide)).2.2.1 (by decide)⟩

/-- Claim C6: the generated label is the hyphen-join of the parts list, which
always contains a dictionary word token and, the shipped prefix and suffix
lists being nonempty, always holds at least two tokens. -/
theorem C6_label_tokens (u v : Bool) (s : RandStream) (pos : Nat) :
    (generate_subdomain_name u v s pos).1 = hyphenJoin (generate_parts u v s pos).1 ∧
      (∃ w, w ∈ (generate_parts u v s pos).1 ∧ w ∈ SUBDOMAIN_DICTIONARY.words) ∧
      2 ≤ (generate_parts u v s pos).1.length := by
  obtain ⟨pre, w, suf, heq, hw, -, -, hne⟩ := generate_parts_cases u v s pos
  refine ⟨rfl, ⟨w, by rw [heq]; simp, hw⟩, ?_⟩
  rw [heq]
  have hlen : 1 ≤ pre.length + suf.length := by
    rcases hne with h | h
    · have := List.length_pos.mpr h
      omega
    · have := List.length_pos.mpr h
      omega
  simp only [List.length_append, List.length_cons]
  omega

/-- Claim C7: get_random_suggestions returns exactly count suggestions for a
positive count and none for a nonpositive count, each suggestion uses an
allowlisted main domain with fullDomain = label.mainDomain, no error is
possible, and duplicates are allowed (a duplicate pair is exhibited). -/
theorem C7_random_suggestions (count : Int) (s : RandStream) (pos : Nat) :
    (get_random_suggestions count s pos).1.length = count.toNat ∧
      (0 < count → (((get_random_suggestions count s pos).1.length : Int) = count)) ∧
      (count ≤ 0 → (get_random_suggestions count s pos).1 = []) ∧
      (∀ x ∈ (get_random_suggestions count s pos).1, x.main_domain ∈ MAIN_DOMAINS ∧
        x.full_domain = x.subdomain ++ "." ++ x.main_domain) ∧
      ∃ y, (get_random_suggestions 2 (fun _ => 0) 0).1 = [y, y] := by
  obtain ⟨hlen, hall⟩ := suggestLoop_spec s count.toNat pos
  unfold get_random_suggestions
  refine ⟨hlen, ?_, ?_, ?_, ?_⟩
  · intro hpos
    rw [hlen]
    omega
  · intro hnp
    have h0 : count.toNat = 0 := Int.toNat_of_nonpos hnp
    rw [h0] at hlen ⊢
    exact List.length_eq_zero.mp hlen
  · intro x hx
    obtain ⟨h1, h2, -⟩ := hall x hx
    exact ⟨h1, h2⟩
  · exact ⟨⟨"my-camera-cam", "accesscam.org", "my-camera-cam.accesscam.org"⟩, by decide⟩

/-- Witness for claim C7 at concrete counts. -/
theorem C7_witness :
    ((0 : Int) < 5) ∧ (((get_random_suggestions 5 (fun _ => 0) 0).1.length : Int) = 5) ∧
      ((-1 : Int) ≤ 0) ∧ (get_random_suggestions (-1) (fun _ => 0) 0).1 = [] :=
  ⟨by decide, (C7_random_suggestions 5 (fun _ => 0) 0).2.1 (by decide),
    by decide, (C7_random_suggestions (-1) (fun _ => 0) 0).2.2.1 (by decide)⟩

/-- Claim C8: get_main_domains is a pure function returning the fixed
allowlist, so two calls agree in content and order and never fail. -/
theorem C8_get_main_domains_idempotent :
    get_main_domains () = MAIN_DOMAINS ∧ get_main_domains () = get_main_domains () :=
  ⟨rfl, rfl⟩

/-- Claim C9: a nonpositive count makes generate_subdomains return the empty
list (the loop body never runs, the cursor is untouched), while the allowlist
check still fires first for a non-allowlisted main domain. -/
theorem C9_nonpositive_count (md : String) (count : Int) (u v : Bool) (s : RandStream)
    (pos : Nat) (hc : count ≤ 0) :
    (md ∈ MAIN_DOMAINS → generate_subdomains md count u v s pos = (.ok [], pos)) ∧
      (md ∉ MAIN_DOMAINS →
        generate_subdomains md count u v s pos = (.error .InvalidDomainError, pos)) := by
  constructor
  · intro h
    unfold generate_subdomains
    rw [if_pos h]
    have h0 : (count * 3).toNat = 0 := Int.toNat_of_nonpos (by omega)
    rw [h0]
    rfl
  · intro h
    unfold generate_subdomains
    rw [if_neg h]

/-- Witness for claim C9 at concrete inputs. -/
theorem C9_witness :
    ((-2 : Int) ≤ 0) ∧ "dynu.net" ∈ MAIN_DOMAINS ∧
      generate_subdomains "dynu.net" (-2) true true (fun _ => 0) 0 = (.ok [], 0) ∧
      "example.com" ∉ MAIN_DOMAINS ∧
      generate_subdomains "example.com" (-2) true true (fun _ => 0) 0
        = (.error .InvalidDomainError, 0) :=
  ⟨by decide, by decide,
    (C9_nonpositive_count "dynu.net" (-2) true true (fun _ => 0) 0 (by decide)).1 (by decide),
    by decide,
    (C9_nonpositive_count "example.com" (-2) true true (fun _ => 0) 0 (by decide)).2
      (by decide)⟩

/-- Claim C10, as stated, fails on the code: a full domain produced by
generate_subdomains contains a dot, which is outside [a-z0-9-]; the charset
property holds of the label, not of the whole full domain. -/
theorem C10_counterexample :
    (generate_subdomains "accesscam.org" 1 false false (fun _ => 0) 0).1
        = .ok ["my-camera.accesscam.org"] ∧
      ('.' ∈ "my-camera.accesscam.org".data) ∧ validChar '.' = false := by
  decide

/-- Claim C10 (amended): every token of the parts list comes from the shipped
dictionary; every generated label is clean (only [a-z0-9-], no leading,
trailing or doubled hyphen); and every full domain produced by
generate_subdomains or get_random_suggestions is such a clean label followed
by a dot and the main domain. -/
theorem C10_amended_clean (u v : Bool) (s : RandStream) (pos : Nat) :
    cleanLabel (generate_subdomain_name u v s pos).1.data ∧
      (∀ t ∈ (generate_parts u v s pos).1, t ∈ allTokens) ∧
      (∀ (md : String) (count : Int) (l : List String), md ∈ MAIN_DOMAINS →
        (generate_subdomains md count u v s pos).1 = .ok l →
        ∀ x ∈ l, ∃ lab, cleanLabel lab.data ∧ x = lab ++ "." ++ md) ∧
      (∀ count : Int, ∀ x ∈ (get_random_suggestions count s pos).1,
        cleanLabel x.subdomain.data ∧
          x.full_domain = x.subdomain ++ "." ++ x.main_domain) := by
  refine ⟨generate_label_clean u v s pos, generate_parts_tokens u v s pos, ?_, ?_⟩
  · intro md count l hmd hok x hx
    obtain ⟨-, hP, -, -, -⟩ := generateLoop_master md count u v s
      (fun y => ∃ lab, cleanLabel lab.data ∧ y = lab ++ "." ++ md)
      (fun q => ⟨(generate_subdomain_name u v s q).1, generate_label_clean u v s q, rfl⟩)
      (count * 3).toNat [] 0 pos List.nodup_nil (fun y hy => absurd hy (List.not_mem_nil y))
    have heq : (generate_subdomains md count u v s pos).1
        = .ok (generateLoop md count u v s (count * 3).toNat [] 0 pos).1 := by
      unfold generate_subdomains
      rw [if_pos hmd]
    rw [heq] at hok
    have hl := Except.ok.inj hok
    exact hP x (by rw [hl]; exact hx)
  · intro count x hx
    obtain ⟨-, hsug⟩ := suggestLoop_spec s count.toNat pos
    obtain ⟨-, hfull, q, hsub⟩ := hsug x hx
    exact ⟨by rw [hsub]; exact generate_label_clean true true s q, hfull⟩

/-- Witness for the amended claim C10 at a concrete input. -/
theorem C10_witness :
    "accesscam.org" ∈ MAIN_DOMAINS ∧
      (generate_subdomains "accesscam.org" 1 false false (fun _ => 0) 0).1
        = .ok ["my-camera.accesscam.org"] ∧
      "my-camera.accesscam.org" ∈ ["my-camera.accesscam.org"] ∧
      ∃ lab, cleanLabel lab.data ∧ "my-camera.accesscam.org" = lab ++ "." ++ "accesscam.org" :=
  ⟨by decide, by decide, by decide,
    (C10_amended_clean false false (fun _ => 0) 0).2.2.1 "accesscam.org" 1
      ["my-camera.accesscam.org"] (by decide) (by decide) "my-camera.accesscam.org"
      (by decide)⟩

end DNSGen
